import Mathlib

/-!
Shallow embedding of `mapadroid/mad_apk/apk_storage_db.py` (class
`APKStorageDatabase`): the database-backed APK storage medium.

Conventions of the embedding:
* Python byte strings are `List Nat`; Python ints are `Int` (arbitrary
  precision), with `Int.fdiv` for the floor division `//`.
* A Python expression that may raise is embedded as `Except PyError α`;
  `Except.error e` models an exception `e` propagating to the caller.
* The relational substrate (the `dbc` wrapper and the tables it maintains)
  is explicit state: a `DbState` value threaded through the operations.
-/

/-- The Python exceptions that the embedded code can raise. -/
inductive PyError where
  | nameError (name : String)
  | zeroDivisionError
deriving DecidableEq, Repr

/-- Modelled from the spec: the usage-category enum of an ArtifactKey
(`APKType` in `apk_enums.py`, which is outside `src/`); only its `value`
payload reaches the embedded code. -/
inductive APKType where
  | pogo
  | rgc
  | pd
deriving DecidableEq, Repr

/-- The integer `value` of an `APKType` member, as used for the `usage`
column of the `mad_apks` insert. -/
def APKType.value : APKType → Nat
  | .pogo => 0
  | .rgc => 1
  | .pd => 2

/-- Modelled from the spec: the architecture enum of an ArtifactKey
(`APKArch` in `apk_enums.py`, which is outside `src/`). -/
inductive APKArch where
  | noarch
  | armeabi_v7a
  | arm64_v8a
deriving DecidableEq, Repr

/-- The integer `value` of an `APKArch` member, as used for the `arch`
column of the `mad_apks` insert. -/
def APKArch.value : APKArch → Nat
  | .noarch => 0
  | .armeabi_v7a => 1
  | .arm64_v8a => 2

/-- Modelled from the spec: the metadata-with-version result type of
`get_current_package_info` (`MADPackages` in `custom_types.py`, outside
`src/`). Its shape never matters: the operation raises before building one. -/
structure MADPackages where
  version : String
  filename : String
  size : Nat
  mimetype : String
deriving DecidableEq, Repr

/-- Embedding of `APKStorageDatabase.delete_file` (lines 33-40): its body is
`return await MadApkHelper.delete_file(session, package, architecture)`.
The name `session` is not bound in the method, the class, or the module, so
evaluating the argument list raises `NameError` before the helper is called;
the method can never return a boolean. -/
def delete_file (package : APKType) (architecture : APKArch) :
    Except PyError Bool :=
  Except.error (PyError.nameError "session")

/-- Embedding of `APKStorageDatabase.get_current_version` (lines 42-44): the body
`return await MadApkHelper.get_current_version(session, package, architecture)`
evaluates the unbound name `session` and raises `NameError`. -/
def get_current_version (package : APKType) (architecture : APKArch) :
    Except PyError (Option String) :=
  Except.error (PyError.nameError "session")

/-- Embedding of `APKStorageDatabase.get_current_package_info` (lines 46-56): the body
`return await MadApkHelper.get_current_package_info(session, package)`
evaluates the unbound name `session` and raises `NameError`. -/
def get_current_package_info (package : APKType) :
    Except PyError (Option MADPackages) :=
  Except.error (PyError.nameError "session")

/-- Embedding of `APKStorageDatabase.get_storage_type` (lines 58-59). -/
def get_storage_type : String := "db"

/-- Modelled from the spec: `generate_filename` from `mad_apk/utils.py`
(outside `src/`), a deterministic filename derived from key, version and
content type. The exact string never matters to any claim. -/
def generate_filename (package : APKType) (architecture : APKArch)
    (version : String) (mimetype : String) : String :=
  toString package.value ++ "_" ++ toString architecture.value ++ "_" ++
    version ++ "_" ++ mimetype

/-- Normalisation of one Python slice endpoint against a list of length `L`:
a negative index counts from the end (clamped below at 0), a non-negative
index is clamped above at `L`. -/
def pyIndex (L : Nat) (i : Int) : Nat :=
  if i < 0 then (min ((i + L).toNat) L) else (min i.toNat L)

/-- The Python slice `xs[a:b]` (step 1): elements from the normalised `a`
up to, excluding, the normalised `b`; empty when the bounds cross. -/
def pySlice (xs : List Nat) (a b : Int) : List Nat :=
  (xs.drop (pyIndex xs.length a)).take (pyIndex xs.length b - pyIndex xs.length a)

/-- The chunk-splitting step of `save_file` (lines 98-100), as the list
comprehension in the source:
`[data.getbuffer()[i * chunk_size:(i + 1) * chunk_size]
  for i in range((len(data.getbuffer()) + chunk_size - 1) // chunk_size)]`.
With `chunk_size = 0` the floor division raises `ZeroDivisionError`; a
negative range bound gives an empty `range`, mirrored by `Int.toNat`. -/
def split (payload : List Nat) (chunk_size : Int) : Except PyError (List (List Nat)) :=
  if chunk_size = 0 then Except.error PyError.zeroDivisionError
  else
    Except.ok ((List.range (Int.toNat
        (Int.fdiv ((payload.length : Int) + chunk_size - 1) chunk_size))).map
      (fun (i : Nat) => pySlice payload ((i : Int) * chunk_size) (((i : Int) + 1) * chunk_size)))

/-- Proof-side normal form of the splitting step for a positive chunk size
`C : Nat`: chunk `i` is `take C` of `drop (i * C)`. -/
def chunkList (payload : List Nat) (C : Nat) : List (List Nat) :=
  (List.range ((payload.length + C - 1) / C)).map
    (fun i => (payload.drop (i * C)).take C)

/-- One row of the `filestore_meta` table. -/
structure FilestoreMeta where
  filestore_id : Nat
  filename : String
  size : Nat
  mimetype : String
deriving DecidableEq, Repr

/-- One row of the `mad_apks` table. The pair `(usage, arch)` carries the
uniqueness constraint of the table. -/
structure MadApkRow where
  filestore_id : Nat
  usage : Nat
  arch : Nat
  version : String
deriving DecidableEq, Repr

/-- One row of the `filestore_chunks` table; row order is insertion order. -/
structure ChunkRow where
  filestore_id : Nat
  size : Nat
  data : List Nat
deriving DecidableEq, Repr

/-- The relational substrate as seen by this module: the three tables and
the auto-increment counter for `filestore_meta`. -/
structure DbState where
  filestore_meta : List FilestoreMeta
  mad_apks : List MadApkRow
  filestore_chunks : List ChunkRow
  next_id : Nat
deriving DecidableEq, Repr

/-- Modelled from the spec: `dbc.autoexec_insert('filestore_meta', ...)`
(the `dbc` wrapper is outside `src/`), a single-statement insert returning
the freshly generated auto-increment identifier. -/
def insert_filestore_meta (st : DbState) (filename : String) (size : Nat)
    (mimetype : String) : DbState × Nat :=
  ({ st with
      filestore_meta := st.filestore_meta ++ [⟨st.next_id, filename, size, mimetype⟩],
      next_id := st.next_id + 1 },
    st.next_id)

/-- Modelled from the spec:
`dbc.autoexec_insert('mad_apks', ..., optype='ON DUPLICATE')` (the `dbc`
wrapper is outside `src/`), a single-statement insert with conflict-replace
semantics keyed by the uniqueness constraint on `(usage, arch)`: an existing
row for the key is updated in place, otherwise the row is appended. -/
def upsert_mad_apks (st : DbState) (row : MadApkRow) : DbState :=
  if st.mad_apks.any (fun r => r.usage == row.usage && r.arch == row.arch) then
    { st with
        mad_apks := st.mad_apks.map (fun r =>
          if r.usage == row.usage && r.arch == row.arch then
            { r with filestore_id := row.filestore_id, version := row.version }
          else r) }
  else { st with mad_apks := st.mad_apks ++ [row] }

/-- Modelled from the spec: `dbc.autoexec_insert('filestore_chunks', ...)`
(the `dbc` wrapper is outside `src/`), a single-statement insert appending
one chunk row; the source stores `size = len(chunked_data)` with the data. -/
def insert_chunk (st : DbState) (fid : Nat) (c : List Nat) : DbState :=
  { st with filestore_chunks := st.filestore_chunks ++ [⟨fid, c.length, c⟩] }

/-- The chunk-insert loop of `save_file` (lines 99-106). Substrate failures
are injected by the oracle `sub`: each insert consumes one entry, and a
`true` entry makes that insert raise `StorageBackendError`, which propagates
to the top-level handler of `save_file`, leaving the rows already inserted
in place. Returns the Python return value of the `try` block together with
the final substrate state. -/
def save_chunks (sub : List Bool) (st : DbState) (fid : Nat) :
    List (List Nat) → Bool × DbState
  | [] => (true, st)
  | c :: cs =>
    if sub.headD false then (false, st)
    else save_chunks (sub.drop 1) (insert_chunk st fid c) fid cs

/-- Embedding of `APKStorageDatabase.save_file` (lines 64-111). The body is
one `try` block: delete the old artifact, insert `filestore_meta`, upsert
`mad_apks`, split the payload at `CHUNK_MAX_SIZE` and insert the chunks;
the bare `except` turns any exception into a `False` return, leaving
whatever state the sequence reached. `cfg` is the configured
`global_variables.CHUNK_MAX_SIZE` (outside `src/`); `sub` is the oracle of
substrate failures, one entry per substrate insert, each `true` entry
raising `StorageBackendError` at that insert; `retry` is declared but never
read. Returns the Python return value and the final substrate state. -/
def save_file (cfg : Int) (sub : List Bool) (st : DbState) (package : APKType)
    (architecture : APKArch) (version : String) (mimetype : String)
    (data : List Nat) ( retry : Bool) : Bool × DbState :=
  match delete_file package architecture with
  | Except.error _ => (false, st)
  | Except.ok _ =>
    let file_length : Nat := data.length
    let filename : String := generate_filename package architecture version mimetype
    if sub.headD false then (false, st)
    else
      let r1 := insert_filestore_meta st filename file_length mimetype
      if (sub.drop 1).headD false then (false, r1.1)
      else
        let st2 := upsert_mad_apks r1.1 ⟨r1.2, package.value, architecture.value, version⟩
        match split data cfg with
        | Except.error _ => (false, st2)
        | Except.ok chunks => save_chunks (sub.drop 2) st2 r1.2 chunks

/-- The arguments of one `save_file` call (with its failure oracle and the
configured chunk size). -/
structure SaveArgs where
  cfg : Int
  sub : List Bool
  package : APKType
  architecture : APKArch
  version : String
  mimetype : String
  data : List Nat
  retryFlag : Bool
deriving Repr

/-- Runs a finite sequence of `save_file` calls, threading the substrate
state. -/
def runSaves (st : DbState) : List SaveArgs → DbState
  | [] => st
  | a :: rest =>
      runSaves (save_file a.cfg a.sub st a.package a.architecture a.version
        a.mimetype a.data a.retryFlag).2 rest

/-- Number of `mad_apks` rows carrying the key `(u, a)`. -/
def versionCount (st : DbState) (u a : Nat) : Nat :=
  (st.mad_apks.filter (fun r => r.usage == u && r.arch == a)).length

/-- The uniqueness constraint of `mad_apks`: at most one version record for
the key `(u, a)`. -/
def atMostOneVersion (st : DbState) (u a : Nat) : Prop :=
  versionCount st u a ≤ 1

theorem fdiv_ofNat (m n : Nat) : Int.fdiv (Int.ofNat m) (Int.ofNat n) = Int.ofNat (m / n) := by
  cases m with
  | zero => simp [Int.fdiv]
  | succ m => rfl

theorem pySlice_natCast (xs : List Nat) (a b : Nat) :
    pySlice xs (a : Int) (b : Int) = (xs.drop a).take (b - a) := by
  unfold pySlice pyIndex
  rw [if_neg (by omega), if_neg (by omega), Int.toNat_natCast, Int.toNat_natCast]
  have hdrop : xs.drop (min a xs.length) = xs.drop a := by
    rcases le_total a xs.length with h | h
    · rw [min_eq_left h]
    · rw [min_eq_right h, List.drop_eq_nil_of_le le_rfl, List.drop_eq_nil_of_le h]
  rw [hdrop, List.take_eq_take]
  simp only [List.length_drop]
  omega

theorem fdiv_natCast (m n : Nat) :
    Int.fdiv ((m : Nat) : Int) ((n : Nat) : Int) = (((m / n : Nat)) : Int) := by
  cases m with
  | zero => simp [Int.fdiv]
  | succ m => rfl

theorem split_pos_eq (P : List Nat) (C : Int) (hC : 0 < C) :
    split P C = Except.ok (chunkList P C.toNat) := by
  obtain ⟨c, rfl⟩ : ∃ c : Nat, C = (c : Int) :=
    ⟨C.toNat, (Int.toNat_of_nonneg hC.le).symm⟩
  have hc : 0 < c := by exact_mod_cast hC
  have h1 : ((P.length : Int) + (c : Int) - 1) = ((P.length + c - 1 : Nat) : Int) := by
    omega
  unfold split chunkList
  rw [if_neg (by exact_mod_cast hC.ne'), h1, fdiv_natCast]
  simp only [Int.toNat_natCast]
  congr 1
  apply List.map_congr_left
  intro i hi
  have h2 : ((i : Nat) : Int) * (c : Int) = ((i * c : Nat) : Int) := by
    push_cast; ring
  have h3 : (((i : Nat) : Int) + 1) * (c : Int) = (((i + 1) * c : Nat) : Int) := by
    push_cast; ring
  rw [h2, h3, pySlice_natCast]
  have h4 : (i + 1) * c - i * c = c := by rw [Nat.succ_mul]; omega
  rw [h4]

theorem chunkList_nil (C : Nat) (hC : 0 < C) : chunkList [] C = [] := by
  unfold chunkList
  rw [List.length_nil, Nat.div_eq_of_lt (by omega)]
  rfl

theorem chunkList_cons (P : List Nat) (C : Nat) (hC : 0 < C) (hP : P ≠ []) :
    chunkList P C = P.take C :: chunkList (P.drop C) C := by
  have hL : 0 < P.length := List.length_pos.mpr hP
  unfold chunkList
  have hn : (P.length + C - 1) / C = (((P.drop C).length + C - 1) / C) + 1 := by
    rw [List.length_drop]
    rcases le_total P.length C with h | h
    · have h1 : P.length - C = 0 := by omega
      have h2 : (0 + C - 1) / C = 0 := Nat.div_eq_of_lt (by omega)
      have h3 : P.length + C - 1 = (P.length - 1) + C := by omega
      rw [h1, h2, h3, Nat.add_div_right _ hC, Nat.div_eq_of_lt (by omega)]
    · have h3 : P.length + C - 1 = (P.length - C + C - 1) + C := by omega
      rw [h3, Nat.add_div_right _ hC]
  rw [hn, List.range_succ_eq_map, List.map_cons, List.map_map]
  congr 1
  · simp
  · apply List.map_congr_left
    intro i hi
    show (P.drop (Nat.succ i * C)).take C = ((P.drop C).drop (i * C)).take C
    rw [List.drop_drop]
    have h5 : C + i * C = Nat.succ i * C := by rw [Nat.succ_mul]; omega
    rw [h5]

theorem chunkList_flatten_aux (C : Nat) (hC : 0 < C) :
    ∀ (n : Nat) (P : List Nat), P.length ≤ n → (chunkList P C).flatten = P := by
  intro n
  induction n with
  | zero =>
    intro P hP
    have h0 : P = [] := List.length_eq_zero.mp (Nat.le_zero.mp hP)
    rw [h0, chunkList_nil C hC]
    rfl
  | succ n ih =>
    intro P hP
    by_cases hP0 : P = []
    · rw [hP0, chunkList_nil C hC]
      rfl
    · rw [chunkList_cons P C hC hP0, List.flatten_cons,
        ih (P.drop C) (by rw [List.length_drop]; omega)]
      exact List.take_append_drop C P

theorem chunkList_flatten (P : List Nat) (C : Nat) (hC : 0 < C) :
    (chunkList P C).flatten = P :=
  chunkList_flatten_aux C hC P.length P le_rfl

theorem chunkList_mem_length (P : List Nat) (C : Nat) (hC : 0 < C) :
    ∀ l ∈ chunkList P C, 0 < l.length ∧ l.length ≤ C := by
  intro l hl
  unfold chunkList at hl
  rw [List.mem_map] at hl
  obtain ⟨i, hi, rfl⟩ := hl
  rw [List.mem_range] at hi
  have h1 : 1 ≤ (P.length + C - 1) / C := by omega
  have h2 : 1 * C ≤ P.length + C - 1 := (Nat.le_div_iff_mul_le hC).mp h1
  have hL : 1 ≤ P.length := by omega
  have h3 : (i + 1) * C ≤ ((P.length + C - 1) / C) * C :=
    Nat.mul_le_mul_right C hi
  have h4 : ((P.length + C - 1) / C) * C ≤ P.length + C - 1 :=
    Nat.div_mul_le_self _ _
  have h5 : i * C + C ≤ P.length + C - 1 := by
    rw [Nat.succ_mul] at h3
    omega
  constructor
  · rw [List.length_take, List.length_drop]
    omega
  · rw [List.length_take]
    exact min_le_left _ _

theorem chunkList_dropLast_aux (C : Nat) (hC : 0 < C) :
    ∀ (n : Nat) (P : List Nat), P.length ≤ n →
      ∀ l ∈ (chunkList P C).dropLast, l.length = C := by
  intro n
  induction n with
  | zero =>
    intro P hP
    have h0 : P = [] := List.length_eq_zero.mp (Nat.le_zero.mp hP)
    rw [h0, chunkList_nil C hC]
    intro l hl
    simp at hl
  | succ n ih =>
    intro P hP
    by_cases hP0 : P = []
    · rw [hP0, chunkList_nil C hC]
      intro l hl
      simp at hl
    · rw [chunkList_cons P C hC hP0]
      rcases hrest : chunkList (P.drop C) C with _ | ⟨r, rs⟩
      · intro l hl
        simp at hl
      · have hCP : C ≤ P.length := by
          by_contra hlt
          push_neg at hlt
          have hdnil : P.drop C = [] := List.drop_eq_nil_of_le (le_of_lt hlt)
          rw [hdnil, chunkList_nil C hC] at hrest
          exact List.cons_ne_nil r rs hrest.symm
        intro l hl
        rw [List.dropLast_cons₂] at hl
        rcases List.mem_cons.mp hl with h | h
        · rw [h, List.length_take, min_eq_left hCP]
        · have := ih (P.drop C) (by rw [List.length_drop]; omega)
          rw [hrest] at this
          exact this l h

theorem chunkList_dropLast (P : List Nat) (C : Nat) (hC : 0 < C) :
    ∀ l ∈ (chunkList P C).dropLast, l.length = C :=
  chunkList_dropLast_aux C hC P.length P le_rfl

theorem chunkList_sum (P : List Nat) (C : Nat) (hC : 0 < C) :
    ((chunkList P C).map List.length).sum = P.length := by
  rw [← List.length_flatten, chunkList_flatten P C hC]

theorem getLast?_mem_of_eq {α : Type} (l : List α) (a : α) (h : l.getLast? = some a) :
    a ∈ l := by
  obtain ⟨hne, rfl⟩ := List.mem_getLast?_eq_getLast (Option.mem_def.mpr h)
  exact List.getLast_mem hne

theorem save_file_eq (cfg : Int) (sub : List Bool) (st : DbState) (p : APKType)
    (a : APKArch) (v m : String) (d : List Nat) (r : Bool) :
    save_file cfg sub st p a v m d r = (false, st) := rfl

theorem runSaves_eq (st : DbState) (calls : List SaveArgs) : runSaves st calls = st := by
  induction calls with
  | nil => rfl
  | cons c rest ih => exact ih

theorem filter_map_keep (l : List MadApkRow) (row : MadApkRow) (u a : Nat) :
    ((l.map (fun r =>
        if r.usage == row.usage && r.arch == row.arch then
          { r with filestore_id := row.filestore_id, version := row.version }
        else r)).filter (fun r => r.usage == u && r.arch == a)).length =
      (l.filter (fun r => r.usage == u && r.arch == a)).length := by
  rw [← List.countP_eq_length_filter, ← List.countP_eq_length_filter, List.countP_map]
  apply List.countP_congr
  intro r hr
  by_cases hx : (r.usage == row.usage && r.arch == row.arch) = true
  · simp [Function.comp, hx]
  · simp [Function.comp, hx]

theorem upsert_preserves_atMostOne (st : DbState) (row : MadApkRow) (u a : Nat)
    (h : atMostOneVersion st u a) : atMostOneVersion (upsert_mad_apks st row) u a := by
  unfold atMostOneVersion versionCount at h ⊢
  unfold upsert_mad_apks
  by_cases hex :
      (st.mad_apks.any (fun r => r.usage == row.usage && r.arch == row.arch)) = true
  · rw [if_pos hex]
    show ((st.mad_apks.map _).filter _).length ≤ 1
    rw [filter_map_keep]
    exact h
  · rw [if_neg hex]
    show ((st.mad_apks ++ [row]).filter _).length ≤ 1
    rw [List.filter_append, List.length_append]
    by_cases hk : (row.usage == u && row.arch == a) = true
    · have hnone : st.mad_apks.filter (fun r => r.usage == u && r.arch == a) = [] := by
        rw [List.filter_eq_nil_iff]
        intro r hr hra
        apply hex
        rw [List.any_eq_true]
        simp only [Bool.and_eq_true, beq_iff_eq] at hra hk
        exact ⟨r, hr, by simp [hra.1, hra.2, hk.1, hk.2]⟩
      rw [hnone]
      simp [hk]
    · have hone : List.filter (fun r => r.usage == u && r.arch == a) [row] = [] := by
        simp [hk]
      rw [hone]
      simpa using h

/-- Claim C1: for every input, save_file returns false and performs no
substrate writes (final state equals initial state): its first step calls
delete_file, which raises NameError on the undefined name session before
any insert is reached, and the top-level handler converts that exception
into a false return. -/
theorem save_file_always_false_no_writes :
    ∀ (cfg : Int) (sub : List Bool) (st : DbState) (p : APKType) (a : APKArch)
      (v m : String) (d : List Nat) (r : Bool),
      save_file cfg sub st p a v m d r = (false, st) ∧
        delete_file p a = Except.error (PyError.nameError "session") :=
  fun _ _ _ _ _ _ _ _ _ => ⟨rfl, rfl⟩

/-- Claim C2: for every payload and every chunk size C greater than zero,
concatenating the chunks produced by the splitting step of save_file
yields exactly the payload. -/
theorem split_flatten_roundtrip (P : List Nat) (C : Int) (hC : 0 < C) :
    (split P C).map List.flatten = Except.ok P := by
  rw [split_pos_eq P C hC]
  show Except.ok ((chunkList P C.toNat).flatten) = Except.ok P
  rw [chunkList_flatten P C.toNat (by omega)]

/-- Witness for C2 at payload [10, 20, 30] and chunk size 2. -/
theorem split_flatten_roundtrip_check :
    (0 : Int) < 2 ∧ (split [10, 20, 30] 2).map List.flatten = Except.ok [10, 20, 30] :=
  ⟨by decide, split_flatten_roundtrip [10, 20, 30] 2 (by decide)⟩

/-- Claim C3: for every payload and chunk size C greater than zero, the
splitting step of save_file produces exactly ceil(len(P)/C) chunks, every
chunk except possibly the last has length exactly C, the last chunk has
length in (0, C], and the chunk lengths sum to len(P). -/
theorem split_chunk_sizing (P : List Nat) (C : Int) (hC : 0 < C)
    (cs : List (List Nat)) (hcs : split P C = Except.ok cs) :
    cs.length = (P.length + C.toNat - 1) / C.toNat ∧
    (∀ l ∈ cs.dropLast, l.length = C.toNat) ∧
    (∀ l, cs.getLast? = some l → 0 < l.length ∧ l.length ≤ C.toNat) ∧
    (cs.map List.length).sum = P.length := by
  have hc : 0 < C.toNat := by omega
  rw [split_pos_eq P C hC] at hcs
  have hceq : chunkList P C.toNat = cs := by injection hcs
  subst hceq
  refine ⟨?_, chunkList_dropLast P _ hc, ?_, chunkList_sum P _ hc⟩
  · unfold chunkList
    rw [List.length_map, List.length_range]
  · intro l hl
    exact chunkList_mem_length P _ hc l (getLast?_mem_of_eq _ l hl)

/-- Witness for C3 at payload [10, 20, 30, 40, 50] and chunk size 2, whose
chunks are [[10, 20], [30, 40], [50]]. -/
theorem split_chunk_sizing_check :
    (0 : Int) < 2 ∧
    ([[10, 20], [30, 40], [50]] : List (List Nat)).length =
      ([10, 20, 30, 40, 50].length + (2 : Int).toNat - 1) / (2 : Int).toNat ∧
    (([[10, 20], [30, 40], [50]] : List (List Nat)).map List.length).sum =
      [10, 20, 30, 40, 50].length :=
  ⟨by decide,
    (split_chunk_sizing [10, 20, 30, 40, 50] 2 (by decide)
      [[10, 20], [30, 40], [50]] rfl).1,
    (split_chunk_sizing [10, 20, 30, 40, 50] 2 (by decide)
      [[10, 20], [30, 40], [50]] rfl).2.2.2⟩

/-- Claim C4: save_file returns true only if every step completes without
raising, and any exception in the sequence is caught at the top level and
yields a false return with the state the sequence had reached (never rolled
back); in this code the first step always raises, so the returned state is
the initial one. -/
theorem save_file_true_only_if_no_raise :
    ∀ (cfg : Int) (sub : List Bool) (st : DbState) (p : APKType) (a : APKArch)
      (v m : String) (d : List Nat) (r : Bool),
      ((save_file cfg sub st p a v m d r).1 = true →
        ∃ b, delete_file p a = Except.ok b) ∧
      (∀ e, delete_file p a = Except.error e →
        save_file cfg sub st p a v m d r = (false, st)) :=
  fun _ _ _ _ _ _ _ _ _ => ⟨fun h => Bool.noConfusion h, fun _ _ => rfl⟩

/-- Witness for C4: a concrete run where the delete step raises and
save_file returns false leaving the state unchanged. -/
theorem save_file_true_only_if_no_raise_check :
    save_file 1048576 [] ⟨[], [], [], 1⟩ APKType.pogo APKArch.noarch "1.0"
      "apk" [7] false = (false, ⟨[], [], [], 1⟩) :=
  (save_file_true_only_if_no_raise 1048576 [] ⟨[], [], [], 1⟩ APKType.pogo
    APKArch.noarch "1.0" "apk" [7] false).2 (PyError.nameError "session") rfl

/-- Counterexample to C5: at a concrete input the delete step raises, the
substrate is fully healthy (an all-success oracle), and yet save_file
returns false with the state unchanged: no later step executed and the
save did not return true. -/
theorem save_file_best_effort_delete_cex :
    delete_file APKType.pogo APKArch.arm64_v8a =
      Except.error (PyError.nameError "session") ∧
    save_file 1048576 [false, false, false, false, false] ⟨[], [], [], 1⟩
      APKType.pogo APKArch.arm64_v8a "1.0"
      "application/vnd.android.package-archive" [1, 2, 3] false =
      (false, ⟨[], [], [], 1⟩) :=
  ⟨rfl, rfl⟩

/-- Claim C5 as amended: a failure of the delete step is not best-effort;
if the delete raises, the exception reaches the top-level handler of
save_file, the remaining steps do not execute, and save_file returns false
with the state unchanged. -/
theorem save_file_aborts_on_delete_error :
    ∀ (cfg : Int) (sub : List Bool) (st : DbState) (p : APKType) (a : APKArch)
      (v m : String) (d : List Nat) (r : Bool) (e : PyError),
      delete_file p a = Except.error e →
      save_file cfg sub st p a v m d r = (false, st) :=
  fun _ _ _ _ _ _ _ _ _ _ _ => rfl

/-- Witness for the amended C5 at a concrete input. -/
theorem save_file_aborts_on_delete_error_check :
    save_file 2 [false] ⟨[], [], [], 5⟩ APKType.rgc APKArch.armeabi_v7a "0.1"
      "apk" [9, 9] true = (false, ⟨[], [], [], 5⟩) :=
  save_file_aborts_on_delete_error 2 [false] ⟨[], [], [], 5⟩ APKType.rgc
    APKArch.armeabi_v7a "0.1" "apk" [9, 9] true (PyError.nameError "session") rfl

/-- Counterexample to C6: a negative chunk size (-1) is not rejected; on
payload [97] the splitting step completes without error, returning one
empty chunk. -/
theorem split_invalid_chunk_size_cex :
    (-1 : Int) ≤ 0 ∧ split [97] (-1) = Except.ok [[]] := by
  constructor
  · decide
  · rfl

/-- Claim C6 as amended: the splitting step raises an error (a
ZeroDivisionError from the ceiling division, not a dedicated InvalidInput)
exactly when the chunk size is zero; for a negative chunk size it completes
without raising. -/
theorem split_error_iff_chunk_size_zero (P : List Nat) (C : Int) :
    split P C = Except.error PyError.zeroDivisionError ↔ C = 0 := by
  constructor
  · intro h
    by_contra hC
    unfold split at h
    rw [if_neg hC] at h
    exact Except.noConfusion h
  · intro h
    rw [h]
    rfl

/-- Witness for the amended C6 at chunk size 0. -/
theorem split_error_iff_chunk_size_zero_check :
    split [5] 0 = Except.error PyError.zeroDivisionError :=
  (split_error_iff_chunk_size_zero [5] 0).mpr rfl

/-- Claim C7: from any state satisfying the uniqueness constraint, any
finite sequence of save_file calls preserves at-most-one version record
per key (indeed no call ever succeeds, so the state is unchanged and the
record vacuously reflects the most recent successful save), and the
version-record write (insert with ON DUPLICATE semantics) never appends a
second record for an existing key. -/
theorem version_record_uniqueness (st : DbState) (calls : List SaveArgs)
    (u a : Nat) (row : MadApkRow) (h : atMostOneVersion st u a) :
    atMostOneVersion (runSaves st calls) u a ∧ runSaves st calls = st ∧
      atMostOneVersion (upsert_mad_apks st row) u a := by
  refine ⟨?_, runSaves_eq st calls, upsert_preserves_atMostOne st row u a h⟩
  rw [runSaves_eq st calls]
  exact h

/-- Witness for C7: one save_file call on the empty substrate, key (0, 0). -/
theorem version_record_uniqueness_check :
    atMostOneVersion (runSaves ⟨[], [], [], 1⟩
        [⟨1048576, [false], APKType.pogo, APKArch.noarch, "1.0", "apk", [1], false⟩]) 0 0 ∧
      runSaves ⟨[], [], [], 1⟩
        [⟨1048576, [false], APKType.pogo, APKArch.noarch, "1.0", "apk", [1], false⟩] =
        ⟨[], [], [], 1⟩ ∧
      atMostOneVersion (upsert_mad_apks ⟨[], [], [], 1⟩ ⟨1, 0, 0, "1.0"⟩) 0 0 :=
  version_record_uniqueness ⟨[], [], [], 1⟩
    [⟨1048576, [false], APKType.pogo, APKArch.noarch, "1.0", "apk", [1], false⟩]
    0 0 ⟨1, 0, 0, "1.0"⟩ (by simp [atMostOneVersion, versionCount])

/-- Claim C8 (code bug evaluation): delete_file on a key with no current
artifact does not return true; it raises NameError on the undefined name
session, against the documented contract of the method. -/
theorem delete_file_missing_key_raises :
    delete_file APKType.rgc APKArch.noarch =
      Except.error (PyError.nameError "session") := rfl

/-- Claim C9: the retry flag of save_file is not honored; runs differing
only in retry produce the same return value and the same final state. -/
theorem save_file_retry_noop :
    ∀ (cfg : Int) (sub : List Bool) (st : DbState) (p : APKType) (a : APKArch)
      (v m : String) (d : List Nat),
      save_file cfg sub st p a v m d true = save_file cfg sub st p a v m d false :=
  fun _ _ _ _ _ _ _ _ => rfl

/-- Claim C10: every call to delete_file, get_current_version or
get_current_package_info raises NameError on the undefined name session;
none of the three ever returns a value. -/
theorem session_name_error_all_lookups :
    ∀ (p : APKType) (a : APKArch),
      delete_file p a = Except.error (PyError.nameError "session") ∧
      get_current_version p a = Except.error (PyError.nameError "session") ∧
      get_current_package_info p = Except.error (PyError.nameError "session") :=
  fun _ _ => ⟨rfl, rfl, rfl⟩
